import Mathlib

/-!
Shallow embedding of the numeric core of the options-trade-visualizer web app:
the Black-Scholes pricing module (src/lib/calculations/black-scholes.ts) and
the options sentiment/signal module (src/lib/options/options/signals.ts), plus
the grid-based sentiment variant (computeSentimentForExpiry).

JavaScript numbers are modelled as real numbers (ℝ); `Number.isFinite` checks
are therefore always true in the model, and `number | null | undefined` fields
are modelled as `Option ℝ` (both `null` and `undefined` fail `isFiniteNumber`
and are falsy, so collapsing them preserves every branch the code takes).
`Date` values are modelled as their epoch-millisecond numbers.
-/

open scoped Classical

/-- `OptionType` from src/types: `"call" | "put"`. -/
inductive OptionType where
  | call
  | put
deriving DecidableEq

/-- `OptionPosition`: `"long" | "short"`. -/
inductive OptionPosition where
  | long
  | short
deriving DecidableEq

/-- `const CONTRACT_SIZE = 100`. -/
def CONTRACT_SIZE : ℝ := 100

/-- `const MONEINESS_TOLERANCE = 0.005`. -/
def MONEINESS_TOLERANCE : ℝ := 0.005

/-- `const EPSILON = 1e-8`. -/
def EPSILON : ℝ := 1e-8

/-- `normPdf = (x) => (1 / Math.sqrt(2 * Math.PI)) * Math.exp(-0.5 * x * x)`. -/
noncomputable def normPdf (x : ℝ) : ℝ :=
  (1 / Real.sqrt (2 * Real.pi)) * Real.exp (-0.5 * x * x)

/-- The five Abramowitz–Stegun coefficients used inside `erf`. -/
def erfCoefficients : List ℝ :=
  [0.254829592, -0.284496736, 1.421413741, -1.453152027, 1.061405429]

/-- The `coefficients.reduce((acc, c, index) => acc + c * Math.pow(t, index + 1), 0)`
loop inside `erf`, written as an index-carrying fold. -/
noncomputable def erfPolyAux (t : ℝ) : List ℝ → ℕ → ℝ → ℝ
  | [], _, acc => acc
  | c :: rest, i, acc => erfPolyAux t rest (i + 1) (acc + c * t ^ (i + 1))

/-- `erf` from black-scholes.ts (Abramowitz and Stegun formula 7.1.26). -/
noncomputable def erf (x : ℝ) : ℝ :=
  let sign : ℝ := if 0 ≤ x then 1 else -1
  let absX := |x|
  let t := 1 / (1 + 0.3275911 * absX)
  let poly := erfPolyAux t erfCoefficients 0 0
  sign * (1 - poly * Real.exp (-absX * absX))

/-- `normCdf = (x) => 0.5 * (1 + erf(x / Math.sqrt(2)))`. -/
noncomputable def normCdf (x : ℝ) : ℝ :=
  0.5 * (1 + erf (x / Real.sqrt 2))

/-- `interface BlackScholesPayload`. -/
structure BlackScholesPayload where
  price : ℝ
  delta : ℝ
  gamma : ℝ
  theta : ℝ
  vega : ℝ
  rho : ℝ
  probabilityITM : ℝ
  expectedMove : ℝ

/-- `ensurePositive = (value, fallback) => Number.isFinite(value) && value > 0 ? value : fallback`;
over ℝ every value is finite, so only the positivity test remains. -/
noncomputable def ensurePositive (value fallback : ℝ) : ℝ :=
  if 0 < value then value else fallback

/-- The `safeSigma` binding of `calculateBlackScholes`: `ensurePositive(sigma, 0.0001)`. -/
noncomputable def bsSafeSigma (sigma : ℝ) : ℝ := ensurePositive sigma 0.0001

/-- The `safeT` binding of `calculateBlackScholes`: `ensurePositive(T, EPSILON)`. -/
noncomputable def bsSafeT (T : ℝ) : ℝ := ensurePositive T EPSILON

/-- The `d1` binding of `calculateBlackScholes`:
`(Math.log(S / K) + (r - q + 0.5 * safeSigma * safeSigma) * safeT) / (safeSigma * sqrtT)`. -/
noncomputable def bsD1 (S K T r q sigma : ℝ) : ℝ :=
  (Real.log (S / K) + (r - q + 0.5 * bsSafeSigma sigma * bsSafeSigma sigma) * bsSafeT T)
    / (bsSafeSigma sigma * Real.sqrt (bsSafeT T))

/-- The `d2` binding of `calculateBlackScholes`: `d1 - safeSigma * sqrtT`. -/
noncomputable def bsD2 (S K T r q sigma : ℝ) : ℝ :=
  bsD1 S K T r q sigma - bsSafeSigma sigma * Real.sqrt (bsSafeT T)

/-- `calculateBlackScholes` from black-scholes.ts (the `safeSigma`, `safeT`,
`d1`, `d2` bindings are the named definitions above). -/
noncomputable def calculateBlackScholes (S K T r q sigma : ℝ)
    (optionType : OptionType) : BlackScholesPayload :=
  let safeSigma := bsSafeSigma sigma
  let safeT := bsSafeT T
  let sqrtT := Real.sqrt safeT
  let d1 := bsD1 S K T r q sigma
  let d2 := bsD2 S K T r q sigma
  let discountedSpot := S * Real.exp (-q * safeT)
  let discountedStrike := K * Real.exp (-r * safeT)
  let isCall := optionType = OptionType.call
  let price := if isCall
    then discountedSpot * normCdf d1 - discountedStrike * normCdf d2
    else discountedStrike * normCdf (-d2) - discountedSpot * normCdf (-d1)
  let delta := if isCall
    then Real.exp (-q * safeT) * normCdf d1
    else Real.exp (-q * safeT) * (normCdf d1 - 1)
  let gamma := (Real.exp (-q * safeT) * normPdf d1) / (S * safeSigma * sqrtT)
  let theta := if isCall
    then (-(Real.exp (-q * safeT)) * S * normPdf d1 * safeSigma) / (2 * sqrtT)
      - r * discountedStrike * normCdf d2
      + q * discountedSpot * normCdf d1
    else (-(Real.exp (-q * safeT)) * S * normPdf d1 * safeSigma) / (2 * sqrtT)
      + r * discountedStrike * normCdf (-d2)
      - q * discountedSpot * normCdf (-d1)
  let vega := discountedSpot * normPdf d1 * sqrtT
  let rho := if isCall
    then safeT * discountedStrike * normCdf d2
    else -safeT * discountedStrike * normCdf (-d2)
  let probabilityITM := if isCall then normCdf d2 else normCdf (-d2)
  let expectedMove := S * safeSigma * Real.sqrt safeT
  ⟨price, delta, gamma, theta, vega, rho, probabilityITM, expectedMove⟩

/-- The code's `erf` is an odd function away from zero. -/
theorem erf_neg (x : ℝ) (hx : x ≠ 0) : erf (-x) = -erf x := by
  rcases hx.lt_or_lt with h | h
  · have h1 : (0 : ℝ) ≤ -x := by linarith
    have h2 : ¬ (0 : ℝ) ≤ x := by linarith
    simp only [erf, abs_neg, if_pos h1, if_neg h2]
    ring
  · have h1 : ¬ (0 : ℝ) ≤ -x := by linarith
    have h2 : (0 : ℝ) ≤ x := le_of_lt h
    simp only [erf, abs_neg, if_pos h2, if_neg h1]
    ring

/-- At zero the code's `erf` returns exactly `1e-9` (the five coefficients sum
to `0.999999999`, not `1`). -/
theorem erf_zero : erf 0 = 1e-9 := by
  simp only [erf, erfCoefficients, erfPolyAux, abs_zero]
  norm_num

/-- `normCdf x + normCdf (-x)` is exactly `1` except at `x = 0`, where the
coefficient-sum defect of `erf` contributes `1e-9`. -/
theorem normCdf_add_neg (x : ℝ) :
    normCdf x + normCdf (-x) = 1 + (if x = 0 then (1e-9 : ℝ) else 0) := by
  by_cases hx : x = 0
  · subst hx
    simp only [normCdf, neg_zero, if_pos rfl, zero_div, erf_zero]
    norm_num
  · have hs : Real.sqrt 2 ≠ 0 := by
      positivity
    have hxd : x / Real.sqrt 2 ≠ 0 := div_ne_zero hx hs
    have : -x / Real.sqrt 2 = -(x / Real.sqrt 2) := by ring
    rw [normCdf, normCdf, this, erf_neg _ hxd, if_neg hx]
    ring

/-- Core parity algebra: for any discounted spot/strike `dS, dK ≥ 0` and any
two distinct arguments `a ≠ b`, the call-minus-put combination of `normCdf`
values differs from `dS - dK` by at most `1e-9 * (dS + dK)`. -/
theorem parity_core (dS dK a b : ℝ) (hdS : 0 ≤ dS) (hdK : 0 ≤ dK) (hab : a ≠ b) :
    |dS * normCdf a - dK * normCdf b - (dK * normCdf (-b) - dS * normCdf (-a))
      - (dS - dK)| ≤ 1e-9 * (dS + dK) := by
  have key : dS * normCdf a - dK * normCdf b
      - (dK * normCdf (-b) - dS * normCdf (-a)) - (dS - dK)
      = dS * ((normCdf a + normCdf (-a)) - 1) - dK * ((normCdf b + normCdf (-b)) - 1) := by
    ring
  rw [key, normCdf_add_neg a, normCdf_add_neg b]
  by_cases ha : a = 0
  · have hb : ¬ b = 0 := fun h => hab (by rw [ha, h])
    rw [if_pos ha, if_neg hb]
    have : dS * (1 + 1e-9 - 1) - dK * (1 + 0 - 1) = dS * 1e-9 := by ring
    rw [this, abs_of_nonneg (by positivity)]
    nlinarith
  · by_cases hb : b = 0
    · rw [if_neg ha, if_pos hb]
      have : dS * (1 + 0 - 1) - dK * (1 + 1e-9 - 1) = -(dK * 1e-9) := by ring
      rw [this, abs_neg, abs_of_nonneg (by positivity)]
      nlinarith
    · rw [if_neg ha, if_neg hb]
      have : dS * (1 + 0 - 1) - dK * (1 + 0 - 1) = 0 := by ring
      rw [this, abs_zero]
      positivity

/-- Unfolding lemma: the call price returned by `calculateBlackScholes`. -/
theorem bs_price_call (S K T r q sigma : ℝ) :
    (calculateBlackScholes S K T r q sigma OptionType.call).price
      = S * Real.exp (-q * bsSafeT T) * normCdf (bsD1 S K T r q sigma)
        - K * Real.exp (-r * bsSafeT T) * normCdf (bsD2 S K T r q sigma) := rfl

/-- Unfolding lemma: the put price returned by `calculateBlackScholes`. -/
theorem bs_price_put (S K T r q sigma : ℝ) :
    (calculateBlackScholes S K T r q sigma OptionType.put).price
      = K * Real.exp (-r * bsSafeT T) * normCdf (-bsD2 S K T r q sigma)
        - S * Real.exp (-q * bsSafeT T) * normCdf (-bsD1 S K T r q sigma) := rfl

/-- C1: for positive finite inputs the call and put prices returned by
`calculateBlackScholes` satisfy put-call parity
`call - put = S*e^(-qT) - K*e^(-rT)` up to the `1e-9` defect of the
Abramowitz-Stegun `erf` approximation at the origin, i.e. well within
floating-point tolerance (`1e-9 * (S + K)`); away from `d1 = 0` and `d2 = 0`
the identity is exact because the `erf` approximation is odd. -/
theorem C1_put_call_parity (S K T r q sigma : ℝ)
    (hS : 0 < S) (hK : 0 < K) (hT : 0 < T)
    (hr : 0 < r) (hq : 0 < q) (hsigma : 0 < sigma) :
    |(calculateBlackScholes S K T r q sigma OptionType.call).price
      - (calculateBlackScholes S K T r q sigma OptionType.put).price
      - (S * Real.exp (-q * T) - K * Real.exp (-r * T))|
      ≤ 1e-9 * (S + K) := by
  have hsig' : bsSafeSigma sigma = sigma := by
    simp [bsSafeSigma, ensurePositive, hsigma]
  have hT' : bsSafeT T = T := by
    simp [bsSafeT, ensurePositive, hT]
  have hpos : 0 < sigma * Real.sqrt T := by positivity
  have hab : bsD1 S K T r q sigma ≠ bsD2 S K T r q sigma := by
    rw [bsD2, hsig', hT']
    intro h
    have : sigma * Real.sqrt T = 0 := by linarith
    linarith
  rw [bs_price_call, bs_price_put, hT']
  have main := parity_core (S * Real.exp (-q * T)) (K * Real.exp (-r * T))
    (bsD1 S K T r q sigma) (bsD2 S K T r q sigma)
    (by positivity) (by positivity) hab
  refine le_trans main ?_
  have h1 : S * Real.exp (-q * T) ≤ S := by
    have hle : Real.exp (-q * T) ≤ 1 := by
      rw [show (1 : ℝ) = Real.exp 0 by rw [Real.exp_zero]]
      exact Real.exp_le_exp.mpr (by nlinarith)
    nlinarith
  have h2 : K * Real.exp (-r * T) ≤ K := by
    have hle : Real.exp (-r * T) ≤ 1 := by
      rw [show (1 : ℝ) = Real.exp 0 by rw [Real.exp_zero]]
      exact Real.exp_le_exp.mpr (by nlinarith)
    nlinarith
  nlinarith

/-- Concrete instantiation of `C1_put_call_parity` at `S=K=T=r=q=sigma=1`. -/
theorem C1_put_call_parity_witness :
    (0 : ℝ) < 1 ∧
    |(calculateBlackScholes 1 1 1 1 1 1 OptionType.call).price
      - (calculateBlackScholes 1 1 1 1 1 1 OptionType.put).price
      - (1 * Real.exp (-1 * 1) - 1 * Real.exp (-1 * 1))|
      ≤ 1e-9 * (1 + 1) :=
  ⟨one_pos, C1_put_call_parity 1 1 1 1 1 1 one_pos one_pos one_pos one_pos one_pos one_pos⟩

/-- `interface ProfitPoint`. -/
structure ProfitPoint where
  price : ℝ
  profit : ℝ

/-- `interface OptionGreeks`. -/
structure OptionGreeks where
  delta : ℝ
  gamma : ℝ
  theta : ℝ
  vega : ℝ
  rho : ℝ

/-- `OptionMoneyness`: `"ATM" | "ITM" | "OTM"`. -/
inductive OptionMoneyness where
  | ATM
  | ITM
  | OTM
deriving DecidableEq

/-- `interface OptionAnalysisInput`; the ISO `expiration` string is modelled as
its epoch-millisecond value, optional fields as `Option`. -/
structure OptionAnalysisInput where
  symbol : String
  expiration : ℝ
  optionType : OptionType
  position : OptionPosition
  strike : ℝ
  premium : Option ℝ
  quantity : ℝ
  interestRate : ℝ
  dividendYield : ℝ
  volatility : Option ℝ
  underlyingOverride : Option ℝ

/-- `interface OptionAnalytics`. -/
structure OptionAnalytics where
  underlyingPrice : ℝ
  position : OptionPosition
  breakEven : ℝ
  maxProfit : Option ℝ
  maxLoss : Option ℝ
  probabilityInTheMoney : ℝ
  expectedMove : ℝ
  annualizedReturn : Option ℝ
  payoffAtExpiration : List ProfitPoint
  greeks : OptionGreeks
  moneyness : OptionMoneyness
  premiumPerContract : ℝ
  positionPremium : ℝ
  intrinsicValuePerContract : ℝ
  intrinsicValueTotal : ℝ
  timeValuePerContract : ℝ
  timeValueTotal : ℝ
  contracts : ℝ
  contractSize : ℝ

/-- `toYearFraction`: `Math.max(expiration.getTime() - now.getTime(), EPSILON)
/ (365 * 24 * 60 * 60 * 1000)`, with the two `Date`s as epoch milliseconds. -/
noncomputable def toYearFraction (expirationMs nowMs : ℝ) : ℝ :=
  max (expirationMs - nowMs) EPSILON / (365 * 24 * 60 * 60 * 1000)

/-- `generateProfitCurve` from black-scholes.ts. The config-object defaults are
`priceSteps = 60`, `rangeMultiplier = 2`; they are passed explicitly here. -/
noncomputable def generateProfitCurve (currentPrice strike premium : ℝ)
    (optionType : OptionType) (quantity : ℝ)
    (priceSteps : ℕ) (rangeMultiplier : ℝ) : List ProfitPoint :=
  let minPrice := max (currentPrice / rangeMultiplier) 0
  let maxPrice := currentPrice * rangeMultiplier
  let step := (maxPrice - minPrice) / (priceSteps : ℝ)
  (List.range (priceSteps + 1)).map (fun (i : ℕ) =>
    let price := minPrice + step * (i : ℝ)
    let intrinsic := if optionType = OptionType.call
      then max (price - strike) 0
      else max (strike - price) 0
    ⟨price, (intrinsic - premium) * quantity⟩)

/-- `payoffAtPrice`: `curve.reduce(...)` picking the point closest to `price`;
JavaScript `reduce` with no initial value throws on an empty array, modelled
as `none` (the curve is never empty at the call site). -/
noncomputable def payoffAtPrice (curve : List ProfitPoint) (price : ℝ) : Option ℝ :=
  match curve with
  | [] => none
  | h :: t =>
    some ((t.foldl (fun prev point =>
      if |point.price - price| < |prev.price - price| then point else prev) h).profit)

/-- `buildOptionAnalytics` from black-scholes.ts; `Date.now()` is modelled as
the extra `nowMs` argument fed to `toYearFraction`. -/
noncomputable def buildOptionAnalytics (input : OptionAnalysisInput)
    (resolvedPrice impliedVol premium nowMs : ℝ) : OptionAnalytics :=
  let positionMultiplier : ℝ := if input.position = OptionPosition.long then 1 else -1
  let timeToExpiry := toYearFraction input.expiration nowMs
  let bs := calculateBlackScholes resolvedPrice input.strike timeToExpiry
    input.interestRate input.dividendYield impliedVol input.optionType
  let contractMultiplier := input.quantity * CONTRACT_SIZE
  let effectiveQuantity := contractMultiplier * positionMultiplier
  let payoffAtExpiration := generateProfitCurve resolvedPrice input.strike premium
    input.optionType effectiveQuantity 60 2
  let breakEven := if input.optionType = OptionType.call
    then input.strike + premium else input.strike - premium
  let maxProfit : Option ℝ :=
    if input.optionType = OptionType.call then
      if input.position = OptionPosition.long then none
      else some (premium * contractMultiplier)
    else
      let profitPerShare := max (input.strike - premium) 0
      let profitPerContract := profitPerShare * CONTRACT_SIZE
      if input.position = OptionPosition.long then some (profitPerContract * input.quantity)
      else some (premium * contractMultiplier)
  let maxLoss : Option ℝ :=
    if input.optionType = OptionType.call then
      if input.position = OptionPosition.long then some (premium * contractMultiplier)
      else none
    else
      let lossPerShare := max (input.strike - premium) 0
      let lossPerContract := lossPerShare * CONTRACT_SIZE
      if input.position = OptionPosition.long then some (premium * contractMultiplier)
      else some (lossPerContract * input.quantity)
  let intrinsicPerShare := if input.optionType = OptionType.call
    then max (resolvedPrice - input.strike) 0
    else max (input.strike - resolvedPrice) 0
  let premiumPerContract := premium * CONTRACT_SIZE
  let intrinsicValuePerContractLong := intrinsicPerShare * CONTRACT_SIZE
  let timeValuePerContractLong := max (premiumPerContract - intrinsicValuePerContractLong) 0
  let intrinsicValuePerContract := intrinsicValuePerContractLong * positionMultiplier
  let intrinsicValueTotal := intrinsicValuePerContract * input.quantity
  let timeValuePerContract := timeValuePerContractLong * positionMultiplier
  let timeValueTotal := timeValuePerContract * input.quantity
  let positionPremium := premiumPerContract * input.quantity * positionMultiplier
  let priceDelta := |resolvedPrice - input.strike|
  let toleranceBand := max resolvedPrice input.strike * MONEINESS_TOLERANCE
  let moneyness : OptionMoneyness :=
    if priceDelta ≤ toleranceBand then OptionMoneyness.ATM
    else if (if input.optionType = OptionType.call
        then input.strike < resolvedPrice else resolvedPrice < input.strike)
      then OptionMoneyness.ITM
    else OptionMoneyness.OTM
  let annualizedReturn : Option ℝ :=
    match maxLoss with
    | some ml =>
      if 0 < ml then
        some (((payoffAtPrice payoffAtExpiration (resolvedPrice + bs.expectedMove)).getD 0 / ml)
          / max timeToExpiry EPSILON)
      else none
    | none => none
  let greeks : OptionGreeks := ⟨bs.delta, bs.gamma, bs.theta / 365, bs.vega / 100, bs.rho / 100⟩
  ⟨resolvedPrice, input.position, breakEven, maxProfit, maxLoss, bs.probabilityITM,
    bs.expectedMove, annualizedReturn, payoffAtExpiration, greeks, moneyness,
    premiumPerContract, positionPremium, intrinsicValuePerContract, intrinsicValueTotal,
    timeValuePerContract, timeValueTotal, input.quantity, CONTRACT_SIZE⟩

/-- C2: `buildOptionAnalytics` returns exactly the asymmetric max-profit /
max-loss table: long call -> loss `p*100*qty`, profit unbounded (`none`);
short call -> profit `p*100*qty`, loss unbounded (`none`); long put ->
loss `p*100*qty`, profit `max(K - p, 0)*100*qty`; short put -> profit
`p*100*qty`, loss `max(K - p, 0)*100*qty`. -/
theorem C2_max_profit_loss_table (input : OptionAnalysisInput)
    (resolvedPrice impliedVol premium nowMs : ℝ) :
    (buildOptionAnalytics input resolvedPrice impliedVol premium nowMs).maxProfit
      = (match input.optionType, input.position with
        | OptionType.call, OptionPosition.long => none
        | OptionType.call, OptionPosition.short => some (premium * 100 * input.quantity)
        | OptionType.put, OptionPosition.long =>
            some (max (input.strike - premium) 0 * 100 * input.quantity)
        | OptionType.put, OptionPosition.short => some (premium * 100 * input.quantity))
    ∧ (buildOptionAnalytics input resolvedPrice impliedVol premium nowMs).maxLoss
      = (match input.optionType, input.position with
        | OptionType.call, OptionPosition.long => some (premium * 100 * input.quantity)
        | OptionType.call, OptionPosition.short => none
        | OptionType.put, OptionPosition.long => some (premium * 100 * input.quantity)
        | OptionType.put, OptionPosition.short =>
            some (max (input.strike - premium) 0 * 100 * input.quantity)) := by
  obtain ⟨sym, expir, ot, pos, strike, prem0, qty, ir, dy, vol, uo⟩ := input
  cases ot <;> cases pos <;>
    refine ⟨?_, ?_⟩ <;>
    simp [buildOptionAnalytics, CONTRACT_SIZE] <;>
    ring_nf

/-- The point produced at sample index `i` of a default long-call profit curve
with positive current price. -/
noncomputable def longCallCurvePoint (currentPrice strike premium quantity : ℝ)
    (i : ℕ) : ProfitPoint :=
  ⟨currentPrice / 2 + (currentPrice * 2 - currentPrice / 2) / 60 * (i : ℝ),
    (max (currentPrice / 2 + (currentPrice * 2 - currentPrice / 2) / 60 * (i : ℝ) - strike) 0
      - premium) * quantity⟩

/-- Helper: the default long-call profit curve is the map of
`longCallCurvePoint` over `0..60` when the current price is positive. -/
theorem generateProfitCurve_eq_map (currentPrice strike premium quantity : ℝ)
    (hcp : 0 < currentPrice) :
    generateProfitCurve currentPrice strike premium OptionType.call quantity 60 2
      = (List.range 61).map (longCallCurvePoint currentPrice strike premium quantity) := by
  have hmin : max (currentPrice / 2) 0 = currentPrice / 2 := max_eq_left (by positivity)
  unfold generateProfitCurve
  refine List.map_congr_left fun i _ => ?_
  simp only [longCallCurvePoint, hmin]
  norm_num

/-- C3: with default settings, a long-call profit curve over a positive current
price has exactly 61 evenly spaced sample prices from `currentPrice/2` to
`currentPrice*2`; every sample at or below the strike has profit
`-premium * quantity`, and profit is non-decreasing along the samples. -/
theorem C3_long_call_profit_curve (currentPrice strike premium quantity : ℝ)
    (hcp : 0 < currentPrice) (hK : 0 < strike) (hprem : 0 ≤ premium) (hq : 0 < quantity) :
    (generateProfitCurve currentPrice strike premium OptionType.call quantity 60 2).length = 61
    ∧ (∀ i : ℕ, i < 61 →
        ((generateProfitCurve currentPrice strike premium OptionType.call quantity 60 2).getD i
            ⟨0, 0⟩).price
          = currentPrice / 2 + (currentPrice * 2 - currentPrice / 2) / 60 * (i : ℝ))
    ∧ (∀ i : ℕ, i < 61 →
        ((generateProfitCurve currentPrice strike premium OptionType.call quantity 60 2).getD i
            ⟨0, 0⟩).price ≤ strike →
        ((generateProfitCurve currentPrice strike premium OptionType.call quantity 60 2).getD i
            ⟨0, 0⟩).profit = -premium * quantity)
    ∧ (∀ i j : ℕ, i < 61 → j < 61 → i ≤ j →
        ((generateProfitCurve currentPrice strike premium OptionType.call quantity 60 2).getD i
            ⟨0, 0⟩).profit
          ≤ ((generateProfitCurve currentPrice strike premium OptionType.call quantity 60 2).getD j
            ⟨0, 0⟩).profit) := by
  have hmap := generateProfitCurve_eq_map currentPrice strike premium quantity hcp
  have hget : ∀ i : ℕ, i < 61 →
      (generateProfitCurve currentPrice strike premium OptionType.call quantity 60 2).getD i ⟨0, 0⟩
        = longCallCurvePoint currentPrice strike premium quantity i := by
    intro i hi
    rw [hmap, List.getD_eq_getElem?_getD, List.getElem?_map, List.getElem?_range hi]
    rfl
  have hstep : (0 : ℝ) ≤ (currentPrice * 2 - currentPrice / 2) / 60 := by
    have : (0 : ℝ) ≤ currentPrice * 2 - currentPrice / 2 := by linarith
    positivity
  refine ⟨?_, ?_, ?_, ?_⟩
  · rw [hmap]
    simp
  · intro i hi
    rw [hget i hi]
    simp only [longCallCurvePoint]
  · intro i hi hle
    rw [hget i hi] at hle ⊢
    simp only [longCallCurvePoint] at hle ⊢
    rw [max_eq_right (by linarith : currentPrice / 2
      + (currentPrice * 2 - currentPrice / 2) / 60 * (i : ℝ) - strike ≤ 0)]
    ring
  · intro i j hi hj hij
    rw [hget i hi, hget j hj]
    simp only [longCallCurvePoint]
    have hprice : currentPrice / 2 + (currentPrice * 2 - currentPrice / 2) / 60 * (i : ℝ)
        ≤ currentPrice / 2 + (currentPrice * 2 - currentPrice / 2) / 60 * (j : ℝ) := by
      have : (i : ℝ) ≤ (j : ℝ) := Nat.cast_le.mpr hij
      nlinarith
    have hmax : max (currentPrice / 2 + (currentPrice * 2 - currentPrice / 2) / 60 * (i : ℝ)
          - strike) 0
        ≤ max (currentPrice / 2 + (currentPrice * 2 - currentPrice / 2) / 60 * (j : ℝ)
          - strike) 0 :=
      max_le_max (by linarith) le_rfl
    nlinarith

/-- Concrete instantiation of `C3_long_call_profit_curve` at
`currentPrice = 2`, `strike = 3`, `premium = 1`, `quantity = 100`. -/
theorem C3_long_call_profit_curve_witness :
    (0 : ℝ) < 2 ∧
    (generateProfitCurve 2 3 1 OptionType.call 100 60 2).length = 61 := by
  refine ⟨by norm_num, ?_⟩
  exact (C3_long_call_profit_curve 2 3 1 100 (by norm_num) (by norm_num)
    (by norm_num) (by norm_num)).1

/-- C4 counterexample: at the finite input `S = 0` (with `K = T = sigma = 1`,
`r = q = 0`) the gamma computation of `calculateBlackScholes` divides by
`S * safeSigma * sqrtT = 0`: the epsilon floors on `sigma` and `T` do not
protect the division by `S * sigma * sqrt(T)` when `S` itself is zero. -/
theorem C4_gamma_division_by_zero_at_S_zero :
    (calculateBlackScholes 0 1 1 0 0 1 OptionType.call).gamma
      = (Real.exp (-(0 : ℝ) * bsSafeT 1) * normPdf (bsD1 0 1 1 0 0 1))
        / ((0 : ℝ) * bsSafeSigma 1 * Real.sqrt (bsSafeT 1))
    ∧ (0 : ℝ) * bsSafeSigma 1 * Real.sqrt (bsSafeT 1) = 0 := by
  constructor
  · rfl
  · ring

/-- C4 (amended): the sigma and T floors make `safeSigma` and `safeT` strictly
positive (falling back to `1e-4` and `EPSILON` exactly when the input is not
positive), so the `d1`/`d2` divisor `safeSigma * sqrt(safeT)` is never zero;
the gamma divisor `S * safeSigma * sqrt(safeT)` is additionally nonzero
whenever `S ≠ 0`; and the function always returns a fully populated payload. -/
theorem C4_total_no_zero_division (S K T r q sigma : ℝ) (hS : S ≠ 0) :
    0 < bsSafeSigma sigma
    ∧ 0 < bsSafeT T
    ∧ (¬ 0 < sigma → bsSafeSigma sigma = 0.0001)
    ∧ (¬ 0 < T → bsSafeT T = EPSILON)
    ∧ bsSafeSigma sigma * Real.sqrt (bsSafeT T) ≠ 0
    ∧ S * bsSafeSigma sigma * Real.sqrt (bsSafeT T) ≠ 0
    ∧ ∀ optionType : OptionType, ∃ payload : BlackScholesPayload,
        calculateBlackScholes S K T r q sigma optionType = payload := by
  have hsig : 0 < bsSafeSigma sigma := by
    rw [bsSafeSigma, ensurePositive]
    split
    · assumption
    · norm_num
  have hT : 0 < bsSafeT T := by
    rw [bsSafeT, ensurePositive]
    split
    · assumption
    · rw [EPSILON]; norm_num
  have hsqrt : 0 < Real.sqrt (bsSafeT T) := Real.sqrt_pos.mpr hT
  refine ⟨hsig, hT, ?_, ?_, ?_, ?_, ?_⟩
  · intro hneg
    rw [bsSafeSigma, ensurePositive, if_neg hneg]
  · intro hneg
    rw [bsSafeT, ensurePositive, if_neg hneg]
  · exact ne_of_gt (mul_pos hsig hsqrt)
  · exact mul_ne_zero (mul_ne_zero hS (ne_of_gt hsig)) (ne_of_gt hsqrt)
  · intro optionType
    exact ⟨_, rfl⟩

/-- Concrete instantiation of `C4_total_no_zero_division` at
`S = 2, K = 1, T = -1, r = 0, q = 0, sigma = -3` (degenerate `T` and `sigma`). -/
theorem C4_total_no_zero_division_witness :
    (2 : ℝ) ≠ 0 ∧ 0 < bsSafeSigma (-3) ∧ 0 < bsSafeT (-1) := by
  have h := C4_total_no_zero_division 2 1 (-1) 0 0 (-3) (by norm_num)
  exact ⟨by norm_num, h.1, h.2.1⟩

/-- `side: z.enum(["CALL", "PUT"])`. -/
inductive OptionSide where
  | CALL
  | PUT
deriving DecidableEq

/-- `optionContractSchema` from src/lib/options/schemas; every
`number | null | undefined` field is an `Option ℝ`. -/
structure OptionContract where
  symbol : String
  underlying : String
  expiryDate : ℝ
  strikePrice : ℝ
  side : OptionSide
  unit : Option ℝ
  markPrice : Option ℝ
  bidIV : Option ℝ
  askIV : Option ℝ
  markIV : Option ℝ
  delta : Option ℝ
  theta : Option ℝ
  gamma : Option ℝ
  vega : Option ℝ

/-- `optionOpenInterestSchema`. -/
structure OptionOpenInterest where
  symbol : String
  openInterest : ℝ

/-- `optionPricePointSchema`. -/
structure OptionPricePoint where
  timestamp : ℝ
  price : ℝ

/-- `interface BaselineSentimentResult`. -/
structure BaselineSentimentResult where
  value : Option ℝ
  strikesConsidered : ℕ

/-- `interface RiskReversalResult` (`callStrike`/`putStrike` are optional). -/
structure RiskReversalResult where
  rr25 : Option ℝ
  callStrike : Option ℝ
  putStrike : Option ℝ

/-- `interface NetDeltaTiltResult`. -/
structure NetDeltaTiltResult where
  value : Option ℝ
  notionalsConsidered : ℝ

/-- Default `strikeWindowPct` of `computeBaselineSentiment`. -/
def DEFAULT_STRIKE_WINDOW_PCT : ℝ := 0.2

/-- Default `weightExponent` of `computeBaselineSentiment`. -/
def DEFAULT_WEIGHT_EXPONENT : ℝ := 1.25

/-- Default `targetDelta` of `computeRiskReversal25`. -/
def DEFAULT_TARGET_DELTA : ℝ := 0.25

/-- Default `minDelta` of `computeNetDeltaTilt`. -/
def DEFAULT_MIN_DELTA : ℝ := 0.05

/-- `DEFAULT_FORWARD_HORIZONS`, as an insertion-ordered entry list
(`Object.entries` iterates string keys in insertion order). -/
noncomputable def DEFAULT_FORWARD_HORIZONS : List (String × ℝ) :=
  [("15m", 15 * 60 * 1000), ("1h", 60 * 60 * 1000),
   ("4h", 4 * 60 * 60 * 1000), ("1d", 24 * 60 * 60 * 1000)]

/-- Lookup in a JavaScript `Map` built from an entry list: the LAST entry for
a duplicated key wins. -/
def jsMapGet {β : Type} (entries : List (String × β)) (key : String) : Option β :=
  (entries.reverse.find? (fun e => e.1 == key)).map (fun e => e.2)

/-- `normalizeIv`: `markIV`, else `mean(bidIV, askIV)`, else `bidIV`, else
`askIV`, else null. -/
noncomputable def normalizeIv (contract : OptionContract) : Option ℝ :=
  match contract.markIV with
  | some v => some v
  | none =>
    match contract.bidIV, contract.askIV with
    | some b, some a => some ((b + a) / 2)
    | some b, none => some b
    | none, some a => some a
    | none, none => none

/-- One step of the `filtered.forEach` accumulation in
`computeBaselineSentiment`; the accumulator is `(callScore, putScore)`. -/
noncomputable def baselineScoreStep (indexPrice weightExponent : ℝ)
    (acc : ℝ × ℝ) (contract : OptionContract) : ℝ × ℝ :=
  let distance := |contract.strikePrice - indexPrice|
  let weight := 1 / (1 + distance ^ weightExponent)
  let premium := contract.markPrice.getD 0
  if contract.side = OptionSide.CALL
    then (acc.1 + weight * premium, acc.2)
    else (acc.1, acc.2 + weight * premium)

/-- `computeBaselineSentiment` from signals.ts; the options object is passed
as the two explicit arguments `strikeWindowPct`, `weightExponent`. -/
noncomputable def computeBaselineSentiment (contracts : List OptionContract)
    (indexPrice strikeWindowPct weightExponent : ℝ) : BaselineSentimentResult :=
  if contracts.isEmpty ∨ indexPrice ≤ 0 then ⟨none, 0⟩
  else
    let filtered := contracts.filter (fun contract =>
      contract.markPrice.isSome
        && decide (|contract.strikePrice - indexPrice| / indexPrice ≤ strikeWindowPct))
    if filtered.isEmpty then ⟨none, 0⟩
    else
      let scores := filtered.foldl (baselineScoreStep indexPrice weightExponent) (0, 0)
      let total := scores.1 + scores.2
      if total = 0 then ⟨none, filtered.length⟩
      else ⟨some (max (-1) (min 1 ((scores.1 - scores.2) / total))), filtered.length⟩

/-- One step of the nearest-delta `reduce` inside `computeRiskReversal25`;
`distance` is `|delta - targetDelta|` for the call leg and
`|delta + targetDelta|` for the put leg. The leading test models the
JavaScript falsy check `if (!contract.delta) return closest`. -/
noncomputable def closestDeltaStep (distance : ℝ → ℝ)
    (closest : Option OptionContract) (contract : OptionContract) : Option OptionContract :=
  if contract.delta = none ∨ contract.delta = some 0 then closest
  else
    match closest with
    | none => some contract
    | some cl =>
      if distance (contract.delta.getD 0) < distance (cl.delta.getD 0)
        then some contract
        else closest

/-- `computeRiskReversal25` from signals.ts. -/
noncomputable def computeRiskReversal25 (contracts : List OptionContract)
    (targetDelta : ℝ) : RiskReversalResult :=
  if contracts.isEmpty then ⟨none, none, none⟩
  else
    let call := (contracts.filter (fun c =>
        decide (c.side = OptionSide.CALL) && c.delta.isSome)).foldl
      (closestDeltaStep (fun d => |d - targetDelta|)) none
    let put := (contracts.filter (fun c =>
        decide (c.side = OptionSide.PUT) && c.delta.isSome)).foldl
      (closestDeltaStep (fun d => |d + targetDelta|)) none
    match call, put with
    | some c, some p =>
      match normalizeIv c, normalizeIv p with
      | some callIv, some putIv =>
        ⟨some (callIv - putIv), some c.strikePrice, some p.strikePrice⟩
      | _, _ => ⟨none, none, none⟩
    | _, _ => ⟨none, none, none⟩

/-- One step of the `contracts.forEach` accumulation in `computeNetDeltaTilt`;
the accumulator is `(numerator, denominator)`. -/
noncomputable def netDeltaTiltStep (interestMap : List (String × ℝ)) (minDelta : ℝ)
    (acc : ℝ × ℝ) (contract : OptionContract) : ℝ × ℝ :=
  match jsMapGet interestMap contract.symbol, contract.delta with
  | some oi, some d =>
    if |d| < minDelta then acc
    else (acc.1 + d * oi, acc.2 + |oi|)
  | _, _ => acc

/-- `computeNetDeltaTilt` from signals.ts; the possibly-undefined
`openInterest` array is an `Option`. -/
noncomputable def computeNetDeltaTilt (contracts : List OptionContract)
    (openInterest : Option (List OptionOpenInterest)) (minDelta : ℝ) : NetDeltaTiltResult :=
  if contracts.isEmpty ∨ (openInterest.getD []).isEmpty then ⟨none, 0⟩
  else
    let interestMap := (openInterest.getD []).map (fun entry => (entry.symbol, entry.openInterest))
    let acc := contracts.foldl (netDeltaTiltStep interestMap minDelta) (0, 0)
    if acc.2 = 0 then ⟨none, 0⟩
    else ⟨some (max (-1) (min 1 (acc.1 / acc.2))), acc.2⟩

/-- The `sorted` binding of `computeForwardReturns`:
`[...timeline].sort((a, b) => a.timestamp - b.timestamp)`. -/
noncomputable def sortedTimeline (timeline : List OptionPricePoint) : List OptionPricePoint :=
  timeline.mergeSort (fun a b => decide (a.timestamp ≤ b.timestamp))

/-- The `anchor` binding of `computeForwardReturns`:
`sorted.find(p => p.timestamp >= anchorTimestamp) ?? sorted[sorted.length - 1]`. -/
noncomputable def forwardAnchor (timeline : List OptionPricePoint)
    (anchorTimestamp : ℝ) : Option OptionPricePoint :=
  ((sortedTimeline timeline).find?
      (fun point => decide (anchorTimestamp ≤ point.timestamp))).orElse
    (fun _ => (sortedTimeline timeline).getLast?)

/-- `computeForwardReturns` from signals.ts; the horizon record is an
insertion-ordered entry list (`Object.entries` order), the result map
likewise. The `none` anchor branch is unreachable for a non-empty timeline. -/
noncomputable def computeForwardReturns (timeline : List OptionPricePoint)
    (anchorTimestamp : ℝ) (horizons : List (String × ℝ)) : List (String × Option ℝ) :=
  if timeline.isEmpty then horizons.map (fun h => (h.1, none))
  else
    match forwardAnchor timeline anchorTimestamp with
    | none => horizons.map (fun h => (h.1, none))
    | some anchor =>
      horizons.map (fun h =>
        let targetTime := anchor.timestamp + h.2
        match (sortedTimeline timeline).find?
            (fun point => decide (targetTime ≤ point.timestamp)) with
        | none => (h.1, none)
        | some future => (h.1, some ((future.price - anchor.price) / anchor.price)))

/-- `interface ContractRow` from the Binance service module. -/
structure ContractRow where
  strike : ℝ
  callSymbol : Option String
  putSymbol : Option String

/-- `interface ExpirySentimentPoint`. -/
structure ExpirySentimentPoint where
  expiry : ℝ
  score : ℝ
  strikesConsidered : ℕ

/-- `callSymbol ? markBySymbol.get(callSymbol) ?? null : null`: an absent or
empty-string symbol is falsy; a symbol missing from the map yields null. -/
def rowMarkPrice (markBySymbol : List (String × Option ℝ)) (sym : Option String) : Option ℝ :=
  match sym with
  | some s => if s = "" then none else (jsMapGet markBySymbol s).getD none
  | none => none

/-- `callSymbol ? oiBySymbol?.get(callSymbol) ?? 0 : 0`. -/
def rowOpenInterest (oiBySymbol : Option (List (String × ℝ))) (sym : Option String) : ℝ :=
  match sym with
  | some s =>
    if s = "" then 0
    else
      match oiBySymbol with
      | some m => (jsMapGet m s).getD 0
      | none => 0
  | none => 0

/-- One iteration of the `for (const row of grid)` loop of
`computeSentimentForExpiry`; the accumulator is `(num, den, strikes)`. -/
noncomputable def sentimentRowStep (markBySymbol : List (String × Option ℝ))
    (indexPrice : ℝ) (oiBySymbol : Option (List (String × ℝ)))
    (acc : ℝ × ℝ × ℕ) (row : ContractRow) : ℝ × ℝ × ℕ :=
  let callPrice := rowMarkPrice markBySymbol row.callSymbol
  let putPrice := rowMarkPrice markBySymbol row.putSymbol
  if callPrice = none ∧ putPrice = none then acc
  else
    let beta : ℝ := 6
    let rel := Real.log (row.strike / indexPrice)
    let wDist := Real.exp (-beta * |rel|)
    let coi := rowOpenInterest oiBySymbol row.callSymbol
    let poi := rowOpenInterest oiBySymbol row.putSymbol
    let oiW := 1 + Real.logb 10 (1 + coi + poi)
    let sum := callPrice.getD 0 + putPrice.getD 0
    if sum ≤ 0 then acc
    else
      let cNorm := callPrice.getD 0 / sum
      let pNorm := putPrice.getD 0 / sum
      let localScore := cNorm - pNorm
      let w := wDist * oiW
      (acc.1 + localScore * w, acc.2.1 + w, acc.2.2 + 1)

/-- `computeSentimentForExpiry`, the separately maintained grid-based
sentiment variant; it reports `expiry = 0` (the caller fills it in). -/
noncomputable def computeSentimentForExpiry (grid : List ContractRow)
    (markBySymbol : List (String × Option ℝ)) (indexPrice : ℝ)
    (oiBySymbol : Option (List (String × ℝ))) : ExpirySentimentPoint :=
  let acc := grid.foldl (sentimentRowStep markBySymbol indexPrice oiBySymbol) (0, 0, 0)
  let score := if 0 < acc.2.1 then max (-1) (min 1 (acc.1 / acc.2.1)) else 0
  ⟨0, score, acc.2.2⟩

/-- A fold whose step fixes every list element leaves the accumulator alone. -/
theorem foldl_fixed {α β : Type} (f : β → α → β) (l : List α)
    (h : ∀ a ∈ l, ∀ acc : β, f acc a = acc) : ∀ acc : β, l.foldl f acc = acc := by
  induction l with
  | nil => intro acc; rfl
  | cons c t ih =>
    intro acc
    rw [List.foldl_cons, h c (List.mem_cons_self c t)]
    exact ih (fun a ha acc2 => h a (List.mem_cons_of_mem c ha) acc2) acc

/-- The `[-1, 1]` clamp used by the sentiment scores, bounded. -/
theorem clamp_mem_Icc (x : ℝ) : -1 ≤ max (-1) (min 1 x) ∧ max (-1) (min 1 x) ≤ 1 :=
  ⟨le_max_left _ _, max_le (by norm_num) (min_le_left _ _)⟩

/-- The `[-1, 1]` clamp is an odd function. -/
theorem clamp_neg (x : ℝ) : max (-1) (min 1 (-x)) = -(max (-1) (min 1 x)) := by
  rcases le_total x (-1) with h | h
  · rw [min_eq_left (by linarith : (1 : ℝ) ≤ -x), min_eq_right (by linarith : x ≤ 1),
      max_eq_right (by norm_num : (-1 : ℝ) ≤ 1), max_eq_left h]
    norm_num
  · rcases le_total 1 x with h1 | h1
    · rw [min_eq_right (by linarith : -x ≤ 1), min_eq_left h1,
        max_eq_left (by linarith : -x ≤ -1), max_eq_right (by norm_num : (-1 : ℝ) ≤ 1)]
    · rw [min_eq_right (by linarith : -x ≤ 1), min_eq_right h1,
        max_eq_right (by linarith : (-1 : ℝ) ≤ -x), max_eq_right h]

/-- C5: the `value` returned by `computeBaselineSentiment` and by
`computeNetDeltaTilt` is always either null or a number in `[-1, 1]`. -/
theorem C5_sentiment_values_in_range :
    (∀ (contracts : List OptionContract) (indexPrice strikeWindowPct weightExponent : ℝ),
      (computeBaselineSentiment contracts indexPrice strikeWindowPct weightExponent).value = none
      ∨ ∃ v : ℝ,
          (computeBaselineSentiment contracts indexPrice strikeWindowPct weightExponent).value
            = some v
          ∧ -1 ≤ v ∧ v ≤ 1)
    ∧ (∀ (contracts : List OptionContract) (openInterest : Option (List OptionOpenInterest))
        (minDelta : ℝ),
      (computeNetDeltaTilt contracts openInterest minDelta).value = none
      ∨ ∃ v : ℝ,
          (computeNetDeltaTilt contracts openInterest minDelta).value = some v
          ∧ -1 ≤ v ∧ v ≤ 1) := by
  constructor
  · intro contracts indexPrice strikeWindowPct weightExponent
    simp only [computeBaselineSentiment]
    split
    · exact Or.inl rfl
    · split
      · exact Or.inl rfl
      · split
        · exact Or.inl rfl
        · exact Or.inr ⟨_, rfl, (clamp_mem_Icc _).1, (clamp_mem_Icc _).2⟩
  · intro contracts openInterest minDelta
    simp only [computeNetDeltaTilt]
    split
    · exact Or.inl rfl
    · split
      · exact Or.inl rfl
      · exact Or.inr ⟨_, rfl, (clamp_mem_Icc _).1, (clamp_mem_Icc _).2⟩

/-- Relabel a contract's side: CALL becomes PUT and PUT becomes CALL; marks
and strikes unchanged. -/
def flipSide (contract : OptionContract) : OptionContract :=
  { contract with side := match contract.side with
      | OptionSide.CALL => OptionSide.PUT
      | OptionSide.PUT => OptionSide.CALL }

/-- Mapping a function over a list preserves emptiness. -/
theorem isEmpty_map {α β : Type} (f : α → β) (l : List α) :
    (l.map f).isEmpty = l.isEmpty := by
  cases l <;> rfl

/-- One baseline accumulation step on a side-flipped contract swaps the
call-score and put-score components. -/
theorem baselineScoreStep_flipSide (indexPrice weightExponent : ℝ)
    (acc : ℝ × ℝ) (contract : OptionContract) :
    baselineScoreStep indexPrice weightExponent acc (flipSide contract)
      = Prod.swap (baselineScoreStep indexPrice weightExponent (Prod.swap acc) contract) := by
  obtain ⟨a, b⟩ := acc
  cases hc : contract.side <;>
    simp [baselineScoreStep, flipSide, hc]

/-- Folding the baseline step over side-flipped contracts computes the swapped
score pair. -/
theorem baselineScore_foldl_flip (indexPrice weightExponent : ℝ)
    (l : List OptionContract) :
    ∀ acc : ℝ × ℝ,
      l.foldl (fun acc c => baselineScoreStep indexPrice weightExponent acc (flipSide c)) acc
        = Prod.swap (l.foldl (baselineScoreStep indexPrice weightExponent) (Prod.swap acc)) := by
  induction l with
  | nil => intro acc; rfl
  | cons c t ih =>
    intro acc
    rw [List.foldl_cons, List.foldl_cons, baselineScoreStep_flipSide]
    rw [ih (Prod.swap (baselineScoreStep indexPrice weightExponent (Prod.swap acc) c))]
    rw [Prod.swap_swap]

/-- C6: relabelling every CALL as PUT and every PUT as CALL (marks and strikes
unchanged) negates the value of `computeBaselineSentiment` (null stays null),
and leaves the strikes-considered count unchanged. -/
theorem C6_baseline_sentiment_flip_negates (contracts : List OptionContract)
    (indexPrice strikeWindowPct weightExponent : ℝ) :
    (computeBaselineSentiment (contracts.map flipSide) indexPrice
        strikeWindowPct weightExponent).value
      = Option.map (fun v => -v)
        (computeBaselineSentiment contracts indexPrice strikeWindowPct weightExponent).value
    ∧ (computeBaselineSentiment (contracts.map flipSide) indexPrice
        strikeWindowPct weightExponent).strikesConsidered
      = (computeBaselineSentiment contracts indexPrice
        strikeWindowPct weightExponent).strikesConsidered := by
  simp only [computeBaselineSentiment, isEmpty_map]
  by_cases h0 : contracts.isEmpty = true ∨ indexPrice ≤ 0
  · rw [if_pos h0, if_pos h0]
    exact ⟨rfl, rfl⟩
  · rw [if_neg h0, if_neg h0]
    have hfilter : (contracts.map flipSide).filter (fun contract =>
        contract.markPrice.isSome
          && decide (|contract.strikePrice - indexPrice| / indexPrice ≤ strikeWindowPct))
        = (contracts.filter (fun contract =>
            contract.markPrice.isSome
              && decide (|contract.strikePrice - indexPrice| / indexPrice ≤ strikeWindowPct))).map
          flipSide := by
      rw [List.filter_map]
      exact congrArg (List.map flipSide) (List.filter_congr (fun c _ => rfl))
    rw [hfilter, isEmpty_map, List.length_map]
    by_cases h1 : (contracts.filter (fun contract =>
        contract.markPrice.isSome
          && decide (|contract.strikePrice - indexPrice| / indexPrice ≤ strikeWindowPct))).isEmpty
        = true
    · rw [if_pos h1, if_pos h1]
      exact ⟨rfl, rfl⟩
    · rw [if_neg h1, if_neg h1]
      rw [List.foldl_map, baselineScore_foldl_flip]
      have hswap : Prod.swap ((0 : ℝ), (0 : ℝ)) = ((0 : ℝ), (0 : ℝ)) := rfl
      rw [hswap]
      set s := (contracts.filter (fun contract =>
        contract.markPrice.isSome
          && decide (|contract.strikePrice - indexPrice| / indexPrice ≤ strikeWindowPct))).foldl
        (baselineScoreStep indexPrice weightExponent) ((0 : ℝ), (0 : ℝ)) with hs
    
      have htot : s.swap.1 + s.swap.2 = s.1 + s.2 := add_comm s.2 s.1
      rw [htot]
      by_cases h2 : s.1 + s.2 = 0
      · rw [if_pos h2, if_pos h2]
        exact ⟨rfl, rfl⟩
      · rw [if_neg h2, if_neg h2]
        refine ⟨?_, rfl⟩
        have hnum : s.swap.1 - s.swap.2 = -(s.1 - s.2) := by
          show s.2 - s.1 = -(s.1 - s.2)
          ring
        rw [hnum, neg_div, clamp_neg]
        rfl

/-- C7: if every contract with known open interest has unknown delta or
`|delta| < minDelta`, then `computeNetDeltaTilt` returns a null value with
`notionalsConsidered = 0`, whatever the open-interest magnitudes are. -/
theorem C7_net_delta_tilt_all_below_min (contracts : List OptionContract)
    (oiList : List OptionOpenInterest) (minDelta : ℝ)
    (hc : contracts ≠ []) (hoi : oiList ≠ [])
    (hsmall : ∀ contract ∈ contracts, ∀ oi : ℝ,
      jsMapGet (oiList.map (fun entry => (entry.symbol, entry.openInterest)))
          contract.symbol = some oi →
      ∀ d : ℝ, contract.delta = some d → |d| < minDelta) :
    computeNetDeltaTilt contracts (some oiList) minDelta
      = ⟨none, 0⟩ := by
  simp only [computeNetDeltaTilt, Option.getD_some]
  have hfold : contracts.foldl
      (netDeltaTiltStep (oiList.map (fun entry => (entry.symbol, entry.openInterest))) minDelta)
      ((0 : ℝ), (0 : ℝ)) = ((0 : ℝ), (0 : ℝ)) := by
    refine foldl_fixed _ contracts ?_ _
    intro contract hmem acc
    rw [netDeltaTiltStep]
    rcases hget : jsMapGet (oiList.map (fun entry => (entry.symbol, entry.openInterest)))
        contract.symbol with _ | oi <;>
      rcases hdelta : contract.delta with _ | d <;>
        rw [hget] <;>
          try rfl
    show (if |d| < minDelta then acc else (acc.1 + d * oi, acc.2 + |oi|)) = acc
    exact if_pos (hsmall contract hmem oi hget d hdelta)
  rw [hfold]
  rw [if_neg ?_, if_pos rfl]
  intro hcontra
  rcases hcontra with h | h
  · exact hc (List.isEmpty_iff.mp h)
  · exact hoi (List.isEmpty_iff.mp h)

/-- Concrete instantiation of `C7_net_delta_tilt_all_below_min`: one contract
with delta `0.01` against the default `minDelta = 0.05` and huge open
interest. -/
theorem C7_net_delta_tilt_all_below_min_witness :
    computeNetDeltaTilt
      [⟨"BTC-C", "BTC", 0, 50000, OptionSide.CALL, none, some 10, none, none, none,
        some 0.01, none, none, none⟩]
      (some [⟨"BTC-C", 1000000⟩]) DEFAULT_MIN_DELTA
      = ⟨none, 0⟩ := by
  refine C7_net_delta_tilt_all_below_min _ _ _ (by simp) (by simp) ?_
  intro contract hmem oi hget d hdelta
  simp only [List.mem_singleton] at hmem
  subst hmem
  injection hdelta with h
  subst h
  rw [DEFAULT_MIN_DELTA, abs_of_pos (by norm_num)]
  norm_num

/-- C8: with strictly positive horizon offsets every horizon of
`computeForwardReturns` is null when the timeline has at most one point; and
whenever some existing point sits exactly at `anchor.timestamp + offset`, that
horizon resolves to a non-null forward return
`(futurePrice - anchorPrice) / anchorPrice`. -/
theorem C8_forward_returns (timeline : List OptionPricePoint)
    (anchorTimestamp : ℝ) (horizons : List (String × ℝ)) :
    (timeline.length ≤ 1 →
      (∀ h ∈ horizons, 0 < h.2) →
      ∀ entry ∈ computeForwardReturns timeline anchorTimestamp horizons, entry.2 = none)
    ∧ (∀ anchor : OptionPricePoint,
        timeline ≠ [] →
        forwardAnchor timeline anchorTimestamp = some anchor →
        ∀ (label : String) (offset : ℝ), (label, offset) ∈ horizons →
        (∃ pt ∈ timeline, pt.timestamp = anchor.timestamp + offset) →
        ∃ future : OptionPricePoint,
          anchor.timestamp + offset ≤ future.timestamp
          ∧ (label, some ((future.price - anchor.price) / anchor.price))
              ∈ computeForwardReturns timeline anchorTimestamp horizons) := by
  constructor
  · intro hlen hpos entry hentry
    rcases timeline with _ | ⟨p, _ | ⟨q, t⟩⟩
    · simp only [computeForwardReturns, List.isEmpty_nil, if_pos] at hentry
      obtain ⟨h, _, hh⟩ := List.mem_map.mp hentry
      rw [← hh]
    · have hsort : sortedTimeline [p] = [p] := by
        simp [sortedTimeline]
      have hanchor : forwardAnchor [p] anchorTimestamp = some p := by
        rw [forwardAnchor, hsort]
        by_cases hts : anchorTimestamp ≤ p.timestamp
        · simp [List.find?, decide_eq_true hts]
        · simp [List.find?, decide_eq_false hts, Option.orElse]
      simp only [computeForwardReturns] at hentry
      rw [if_neg (by simp), hanchor] at hentry
      obtain ⟨h, hh, hentryeq⟩ := List.mem_map.mp hentry
      have hfind : List.find?
          (fun point => decide (p.timestamp + h.2 ≤ point.timestamp)) [p] = none := by
        have hlt : ¬ (h.2 ≤ 0) := by
          have := hpos h hh
          linarith
        simp [List.find?, decide_eq_false hlt]
      simp only [hsort, hfind] at hentryeq
      rw [← hentryeq]
    · simp at hlen
  · intro anchor hne hanchor label offset hmemh hexact
    obtain ⟨pt, hpt, hptts⟩ := hexact
    have hperm := List.mergeSort_perm timeline
      (fun a b => decide (a.timestamp ≤ b.timestamp))
    have hptsorted : pt ∈ sortedTimeline timeline := by
      rw [sortedTimeline]
      exact hperm.mem_iff.mpr hpt
    have hsome : ((sortedTimeline timeline).find?
        (fun point => decide (anchor.timestamp + offset ≤ point.timestamp))).isSome
          = true := by
      rw [List.find?_isSome]
      exact ⟨pt, hptsorted, decide_eq_true (le_of_eq hptts.symm)⟩
    obtain ⟨future, hfind⟩ := Option.isSome_iff_exists.mp hsome
    have hfuture' : (fun point => decide (anchor.timestamp + offset ≤ point.timestamp)) future
        = true :=
      @List.find?_some _ (fun point => decide (anchor.timestamp + offset ≤ point.timestamp))
        future (sortedTimeline timeline) hfind
    have hfuture : anchor.timestamp + offset ≤ future.timestamp :=
      of_decide_eq_true hfuture'
    refine ⟨future, hfuture, ?_⟩
    simp only [computeForwardReturns]
    rw [if_neg (by simpa [List.isEmpty_iff] using hne), hanchor]
    refine List.mem_map.mpr ⟨(label, offset), hmemh, ?_⟩
    simp only [hfind]

/-- Concrete instantiation of `C8_forward_returns`: an empty timeline with the
default horizons, and a one-point timeline exactly covering a zero-offset
horizon. -/
theorem C8_forward_returns_witness :
    (∀ entry ∈ computeForwardReturns [] 0 DEFAULT_FORWARD_HORIZONS, entry.2 = none)
    ∧ ∃ future : OptionPricePoint,
        (⟨0, 100⟩ : OptionPricePoint).timestamp + 0 ≤ future.timestamp
        ∧ ("0h", some ((future.price - (⟨0, 100⟩ : OptionPricePoint).price)
              / (⟨0, 100⟩ : OptionPricePoint).price))
            ∈ computeForwardReturns [⟨0, 100⟩] 0 [("0h", 0)] := by
  constructor
  · exact (C8_forward_returns [] 0 DEFAULT_FORWARD_HORIZONS).1 (by simp)
      (by norm_num [DEFAULT_FORWARD_HORIZONS])
  · have hsort : sortedTimeline [(⟨0, 100⟩ : OptionPricePoint)] = [⟨0, 100⟩] := by
      simp [sortedTimeline]
    have hanchor : forwardAnchor [(⟨0, 100⟩ : OptionPricePoint)] 0 = some ⟨0, 100⟩ := by
      rw [forwardAnchor, hsort]
      have h00 : (0 : ℝ) ≤ (⟨0, 100⟩ : OptionPricePoint).timestamp := le_refl 0
      simp [List.find?, decide_eq_true h00]
    exact (C8_forward_returns [⟨0, 100⟩] 0 [("0h", 0)]).2 ⟨0, 100⟩ (by simp) hanchor
      "0h" 0 (by simp) ⟨⟨0, 100⟩, by simp, by norm_num⟩

/-- C9: when no strike row contributes (empty grid, or every row has neither
mark known, or a non-positive call+put mark sum), the grid variant
`computeSentimentForExpiry` returns the concrete score `0` with
`strikesConsidered = 0` — not null — whereas `computeBaselineSentiment`
returns a null value in the analogous contract-less case. -/
theorem C9_grid_sentiment_zero_not_null (grid : List ContractRow)
    (markBySymbol : List (String × Option ℝ)) (indexPrice : ℝ)
    (oiBySymbol : Option (List (String × ℝ)))
    (hrows : ∀ row ∈ grid,
      (rowMarkPrice markBySymbol row.callSymbol = none
        ∧ rowMarkPrice markBySymbol row.putSymbol = none)
      ∨ (rowMarkPrice markBySymbol row.callSymbol).getD 0
          + (rowMarkPrice markBySymbol row.putSymbol).getD 0 ≤ 0) :
    computeSentimentForExpiry grid markBySymbol indexPrice oiBySymbol
      = ⟨0, 0, 0⟩
    ∧ ∀ ip sw we : ℝ, (computeBaselineSentiment [] ip sw we).value = none := by
  constructor
  · simp only [computeSentimentForExpiry]
    have hfold : grid.foldl (sentimentRowStep markBySymbol indexPrice oiBySymbol)
        ((0 : ℝ), (0 : ℝ), (0 : ℕ)) = ((0 : ℝ), (0 : ℝ), (0 : ℕ)) := by
      refine foldl_fixed _ grid ?_ _
      intro row hmem acc
      rw [sentimentRowStep]
      rcases hrows row hmem with ⟨hcall, hput⟩ | hsum
      · rw [if_pos ⟨hcall, hput⟩]
      · by_cases hboth : rowMarkPrice markBySymbol row.callSymbol = none
            ∧ rowMarkPrice markBySymbol row.putSymbol = none
        · rw [if_pos hboth]
        · rw [if_neg hboth]
          simp only []
          rw [if_pos hsum]
    rw [hfold]
    norm_num
  · intro ip sw we
    simp [computeBaselineSentiment]

/-- Concrete instantiation of `C9_grid_sentiment_zero_not_null` on the empty
grid. -/
theorem C9_grid_sentiment_zero_not_null_witness :
    computeSentimentForExpiry [] [] 100 none = ⟨0, 0, 0⟩
    ∧ (computeBaselineSentiment [] 100 DEFAULT_STRIKE_WINDOW_PCT
        DEFAULT_WEIGHT_EXPONENT).value = none := by
  have h := C9_grid_sentiment_zero_not_null [] [] 100 none (by simp)
  exact ⟨h.1, h.2 100 DEFAULT_STRIKE_WINDOW_PCT DEFAULT_WEIGHT_EXPONENT⟩

/-- A fold of `closestDeltaStep` never produces a contract whose delta is the
JavaScript-falsy `0` (or missing): such contracts are skipped before the
distance comparison. -/
theorem closestDeltaStep_foldl_not_falsy (distance : ℝ → ℝ)
    (candidates : List OptionContract) :
    ∀ acc : Option OptionContract,
      (∀ cl : OptionContract, acc = some cl → ¬(cl.delta = none ∨ cl.delta = some 0)) →
      ∀ c : OptionContract,
        candidates.foldl (closestDeltaStep distance) acc = some c →
        ¬(c.delta = none ∨ c.delta = some 0) := by
  induction candidates with
  | nil =>
    intro acc hacc c hc
    exact hacc c hc
  | cons x t ih =>
    intro acc hacc c hc
    rw [List.foldl_cons] at hc
    refine ih (closestDeltaStep distance acc x) ?_ c hc
    intro cl hcl
    rw [closestDeltaStep.eq_def] at hcl
    by_cases hfalsy : x.delta = none ∨ x.delta = some 0
    · rw [if_pos hfalsy] at hcl
      exact hacc cl hcl
    · rw [if_neg hfalsy] at hcl
      rcases hvalacc : acc with _ | prev
      · rw [hvalacc] at hcl
        simp only [] at hcl
        injection hcl with hcl'
        rw [← hcl']
        exact hfalsy
      · rw [hvalacc] at hcl
        simp only [] at hcl
        by_cases hd : distance (x.delta.getD 0) < distance (prev.delta.getD 0)
        · rw [if_pos hd] at hcl
          injection hcl with hcl'
          rw [← hcl']
          exact hfalsy
        · rw [if_neg hd] at hcl
          exact hacc cl (hvalacc.trans hcl)

/-- C10: a contract whose delta is exactly `0` is never the contract selected
by the nearest-delta `reduce` of `computeRiskReversal25` (the JavaScript falsy
check skips it after the finiteness filter admits it), even when its distance
to the target delta is strictly smaller than every other candidate's; in the
concrete chain below the zero-delta call at strike 50 (distance `0.25`) loses
to the `0.9`-delta call at strike 60 (distance `0.65`). -/
theorem C10_risk_reversal_never_selects_zero_delta :
    (∀ (candidates : List OptionContract) (distance : ℝ → ℝ) (c : OptionContract),
      candidates.foldl (closestDeltaStep distance) none = some c → c.delta ≠ some 0)
    ∧ computeRiskReversal25
        [⟨"C0", "BTC", 0, 50, OptionSide.CALL, none, none, none, none, some 0.3,
            some 0, none, none, none⟩,
         ⟨"C1", "BTC", 0, 60, OptionSide.CALL, none, none, none, none, some 0.4,
            some 0.9, none, none, none⟩,
         ⟨"P0", "BTC", 0, 40, OptionSide.PUT, none, none, none, none, some 0.35,
            some (-0.25), none, none, none⟩]
        DEFAULT_TARGET_DELTA
      = ⟨some (0.05 : ℝ), some 60, some 40⟩ := by
  constructor
  · intro candidates distance c hfold hzero
    exact closestDeltaStep_foldl_not_falsy distance candidates none
      (fun cl h => by cases h) c hfold (Or.inr hzero)
  · have h1 : decide (OptionSide.PUT = OptionSide.CALL) = false := rfl
    have h2 : decide (OptionSide.CALL = OptionSide.PUT) = false := rfl
    norm_num [computeRiskReversal25, List.filter, closestDeltaStep, normalizeIv,
      DEFAULT_TARGET_DELTA, h1, h2]
    rw [if_neg (Option.some_ne_none _), if_neg (Option.some_ne_none _)]
    norm_num

/-- Concrete instantiation of `C10_risk_reversal_never_selects_zero_delta`:
the single `0.9`-delta candidate is selected and indeed has nonzero delta. -/
theorem C10_risk_reversal_never_selects_zero_delta_witness :
    (⟨"C1", "BTC", 0, 60, OptionSide.CALL, none, none, none, none, some 0.4,
        some 0.9, none, none, none⟩ : OptionContract).delta ≠ some 0 := by
  refine (C10_risk_reversal_never_selects_zero_delta).1
    [⟨"C1", "BTC", 0, 60, OptionSide.CALL, none, none, none, none, some 0.4,
        some 0.9, none, none, none⟩]
    (fun d => |d - DEFAULT_TARGET_DELTA|) _ ?_
  norm_num [closestDeltaStep]
  intro h
  exact absurd h (Option.some_ne_none _)
